import Mathlib

/-!
Verification development for the mobile-automation-agent repository.

Each Python function relevant to the checked properties is shallowly
embedded as an executable Lean definition.  Machine integers are modelled
as `Int`/`Nat` (no overflow is possible at the sizes involved), Python
floats appearing in the coordinate arithmetic are modelled as exact
rationals (`ℚ`), `None`-returning functions as `Option`, and the raw XML
accessibility dump as a list of node records in document order.
-/

namespace MobileAgent

/-! ### Small string library

Python string primitives (`lower`, `strip`, `in`) modelled over `List Char`
so that every operation reduces in the kernel. -/

/-- Python `s.lower()` (ASCII case folding, as used by the repository). -/
def lowerStr (s : String) : String := ⟨s.data.map Char.toLower⟩

/-- Auxiliary: does the first list occur as a leading segment of the second? -/
def listStarts : List Char → List Char → Bool
  | [], _ => true
  | _ :: _, [] => false
  | a :: as, b :: bs => a = b && listStarts as bs

/-- Auxiliary: does `pat` occur as a contiguous sublist? -/
def listHasSub (pat : List Char) : List Char → Bool
  | [] => listStarts pat []
  | c :: rest => listStarts pat (c :: rest) || listHasSub pat rest

/-- Python `pat in s` (substring containment, `"" in s` is `True`). -/
def containsStr (s pat : String) : Bool := listHasSub pat.data s.data

/-- Python `s.strip()` (drop whitespace on both ends). -/
def trimStr (s : String) : String :=
  ⟨((s.data.dropWhile Char.isWhitespace).reverse.dropWhile Char.isWhitespace).reverse⟩

/-! ### `src/device/actions.py` — `DeviceActions`

`map_vision_to_device_coords` (lines 99-123) and `tap` (lines 125-167).
The device fields `SCREEN_WIDTH`, `SCREEN_HEIGHT`, `STATUS_BAR_HEIGHT` are
passed as the parameters `SW`, `SH`, `SBH`. -/

/-- Python `int(q)` on a float/rational: truncation toward zero. -/
def pytrunc (q : ℚ) : ℤ := if 0 ≤ q then ⌊q⌋ else ⌈q⌉

/-- Embeds `DeviceActions.map_vision_to_device_coords`.
`scale_x = SCREEN_WIDTH / screenshot_width if screenshot_width > 0 else 1.0`
(similarly for y); `device_x = int(x_vision * scale_x)`;
`device_y = int(y_vision * scale_y + STATUS_BAR_HEIGHT)`. -/
def map_vision_to_device_coords (SW SH SBH x_vision y_vision sw sh : ℤ) : ℤ × ℤ :=
  let scale_x : ℚ := if 0 < sw then (SW : ℚ) / (sw : ℚ) else 1
  let scale_y : ℚ := if 0 < sh then (SH : ℚ) / (sh : ℚ) else 1
  (pytrunc ((x_vision : ℚ) * scale_x), pytrunc ((y_vision : ℚ) * scale_y + (SBH : ℚ)))

/-- The inverse scaling described by the spec's round-trip law: subtract
`STATUS_BAR_HEIGHT` from the device y, then divide both coordinates by the
scale factors.  Returns the recovered vision-space point (exact rational). -/
def vision_round_trip (SW SH SBH x_vision y_vision sw sh : ℤ) : ℚ × ℚ :=
  let d := map_vision_to_device_coords SW SH SBH x_vision y_vision sw sh
  let scale_x : ℚ := if 0 < sw then (SW : ℚ) / (sw : ℚ) else 1
  let scale_y : ℚ := if 0 < sh then (SH : ℚ) / (sh : ℚ) else 1
  ((d.1 : ℚ) / scale_x, ((d.2 : ℚ) - (SBH : ℚ)) / scale_y)

/-- Embeds `DeviceActions.tap` up to the ADB shell call: the returned value
is `some (x, y)` when the method issues `input tap x y`, and `none` when it
rejects the coordinates without tapping.  The method first clamps
(`x = max(0, min(x, SCREEN_WIDTH))`, same for y), then rejects
`x == 0 and y == 0`, then rejects `x <= 0 or y <= 0`. -/
def tap (SW SH x y : ℤ) : Option (ℤ × ℤ) :=
  let x' := max 0 (min x SW)
  let y' := max 0 (min y SH)
  if x' = 0 ∧ y' = 0 then none
  else if x' ≤ 0 ∨ y' ≤ 0 then none
  else some (x', y')

/-! ### `src/agent/orchestrator.py` — `AgentOrchestrator._validate_coordinates`
(lines 1130-1160). -/

/-- Embeds `_validate_coordinates`: reject `x < 1 or y < 1`, reject
`x > SCREEN_WIDTH or y > SCREEN_HEIGHT`, reject `y < STATUS_BAR_MAX`
(`STATUS_BAR_MAX = 100`), accept otherwise. -/
def validate_coordinates (SW SH x y : ℤ) : Bool :=
  if x < 1 ∨ y < 1 then false
  else if x > SW ∨ y > SH then false
  else if y < 100 then false
  else true

/-! ### `src/agent/error_recovery.py` — `ErrorRecovery.retry_with_backoff`
(lines 81-114).

The action is modelled as a function from the attempt index to `Option α`:
`some v` models a call returning the truthy value `v`, `none` models a call
that raised or returned a falsy value.  The result carries the list of
delays slept (in order), so the backoff schedule is part of the model. -/

/-- Loop body of `retry_with_backoff`: `attempt` is the current index,
`remaining` the number of loop iterations left (`max_retries - attempt`),
`delay` the current backoff delay.  A sleep happens after a failed attempt
only when `attempt < max_retries - 1`, i.e. when `remaining > 1`, and the
delay doubles after each sleep. -/
def retryAux {α : Type} (act : ℕ → Option α) : ℕ → ℕ → ℚ → Option α × List ℚ
  | _, 0, _ => (none, [])
  | attempt, r + 1, delay =>
    match act attempt with
    | some v => (some v, [])
    | none =>
      if r = 0 then (none, [])
      else
        let rest := retryAux act (attempt + 1) r (delay * 2)
        (rest.1, delay :: rest.2)

/-- Embeds `ErrorRecovery.retry_with_backoff`: `for attempt in
range(max_retries)` starting with delay `retry_delay`. -/
def retry_with_backoff {α : Type} (act : ℕ → Option α) (max_retries : ℕ)
    (retry_delay : ℚ) : Option α × List ℚ :=
  retryAux act 0 max_retries retry_delay

/-! ### `src/device/accessibility.py` — `AccessibilityTree`

The raw `uiautomator` XML dump is modelled as a list of node records in
document order.  All the accessibility methods scan the dump with regular
expressions of the shape `<node ... clickable="true" ... bounds="[x1,y1][x2,y2]" ...>`
and then re-search attributes inside the matched tag, so one matched tag
corresponds to one `UINode`: a bounds rectangle (the regexes require it,
with non-negative decimal coordinates) plus the optional attributes the
code extracts.  `pos`/`tagEnd` are the character offsets of the tag in the
dump (`match.start()` / `match.end()`), used by the child/parent window
searches of `find_button_by_keywords`. -/

/-- One `<node ...>` tag of the accessibility dump. -/
structure UINode where
  pos : ℕ := 0
  tagEnd : ℕ := 0
  clickable : Bool := false
  x1 : ℕ := 0
  y1 : ℕ := 0
  x2 : ℕ := 0
  y2 : ℕ := 0
  text : Option String := none
  contentDesc : Option String := none
  className : Option String := none
  resourceId : Option String := none
  packageName : Option String := none
deriving Repr, DecidableEq

/-- Center x of a node, `(x1 + x2) // 2`. -/
def UINode.cx (n : UINode) : ℕ := (n.x1 + n.x2) / 2

/-- Center y of a node, `(y1 + y2) // 2`. -/
def UINode.cy (n : UINode) : ℕ := (n.y1 + n.y2) / 2

/-- Element dictionary produced by `find_clickable_elements`. -/
structure UIElement where
  text : String
  content_desc : String
  className : String
  resource_id : String
  packageName : String
  bounds : List ℕ
  center : ℕ × ℕ
  x : ℕ
  y : ℕ
  width : ℤ
  height : ℤ
deriving Repr, DecidableEq

/-- Element dictionary built for one clickable node by
`find_clickable_elements` (missing attributes default to `""`). -/
def toElement (n : UINode) : UIElement :=
  { text := n.text.getD ""
    content_desc := n.contentDesc.getD ""
    className := n.className.getD ""
    resource_id := n.resourceId.getD ""
    packageName := n.packageName.getD ""
    bounds := [n.x1, n.y1, n.x2, n.y2]
    center := (n.cx, n.cy)
    x := n.cx
    y := n.cy
    width := (n.x2 : ℤ) - (n.x1 : ℤ)
    height := (n.y2 : ℤ) - (n.y1 : ℤ) }

/-- Embeds `AccessibilityTree.find_clickable_elements` (lines 137-207): every
node matching the clickable-with-bounds pattern yields one element dictionary;
no size filtering is applied. -/
def find_clickable_elements (tree : List UINode) : List UIElement :=
  (tree.filter (fun n => n.clickable)).map toElement

/-- The input-field class fragments used by `find_real_login_button`
(lines 559-562): `is_input_field = any(t in class_lower for t in [...])`. -/
def isInputClass (cls : String) : Bool :=
  ["edittext", "textfield", "textinput", "edit", "input",
   "autocomplete", "searchview", "editabletext"].any
    (fun t => containsStr (lowerStr cls) t)

/-- Filter of `find_real_login_button`: clickable, `width > 300`,
`height > 80`, and the class does not indicate an input field. -/
def rlbQualifies (n : UINode) : Bool :=
  n.clickable && ((n.x2 : ℤ) - (n.x1 : ℤ) > 300) && ((n.y2 : ℤ) - (n.y1 : ℤ) > 80)
    && !(isInputClass (n.className.getD ""))

/-- Button dictionary built by `find_real_login_button`. -/
structure RLBBtn where
  x : ℕ
  y : ℕ
  bounds : List ℕ
  width : ℤ
  height : ℤ
  text : String
  className : String
deriving Repr, DecidableEq

/-- Dictionary for one qualifying button of `find_real_login_button`. -/
def toRLBBtn (n : UINode) : RLBBtn :=
  { x := n.cx, y := n.cy
    bounds := [n.x1, n.y1, n.x2, n.y2]
    width := (n.x2 : ℤ) - (n.x1 : ℤ), height := (n.y2 : ℤ) - (n.y1 : ℤ)
    text := n.text.getD "", className := n.className.getD "" }

/-- Embeds `AccessibilityTree.find_real_login_button` (lines 489-603):
collect clickable nodes with `width > 300 and height > 80` skipping input
fields, sort ascending by center y (`sort` in Python is stable, modelled by
`mergeSort`), return the first, or `None` when the list is empty. -/
def find_real_login_button (tree : List UINode) : Option (ℕ × ℕ × RLBBtn) :=
  let btns := (tree.filter rlbQualifies).map toRLBBtn
  match btns.mergeSort (fun a b => decide (a.y ≤ b.y)) with
  | [] => none
  | b :: _ => some (b.x, b.y, b)

/-! #### `find_send_button_near_input` (lines 312-377). -/

/-- Candidate dictionary built by `find_send_button_near_input`. -/
structure SendCand where
  x : ℕ
  y : ℕ
  distance : ℤ
  hasUpArrow : Bool
  hasSendIndicator : Bool
  desc : String
deriving Repr, DecidableEq

/-- Positional filter of `find_send_button_near_input`: skip elements with
`x <= 0 or y <= 0`, `x <= input_x + 20`, `x - input_x > 450`,
`abs(y - input_y) > 120`, or size outside `[20, 180]` in either axis. -/
def sendFilter (input_x input_y : ℕ) (e : UIElement) : Bool :=
  let w : ℤ := (e.bounds.getD 2 0 : ℤ) - (e.bounds.getD 0 0 : ℤ)
  let h : ℤ := (e.bounds.getD 3 0 : ℤ) - (e.bounds.getD 1 0 : ℤ)
  (0 < e.x) && (0 < e.y)
    && ((input_x : ℤ) + 20 < (e.x : ℤ))
    && ((e.x : ℤ) - (input_x : ℤ) ≤ 450)
    && (((e.y : ℤ) - (input_y : ℤ)).natAbs ≤ 120)
    && (20 ≤ w) && (w ≤ 180) && (20 ≤ h) && (h ≤ 180)

/-- Candidate record for one element passing `sendFilter`. -/
def toSendCand (input_x input_y : ℕ) (e : UIElement) : SendCand :=
  let raw_desc := e.content_desc
  let raw_text := e.text
  let combined := lowerStr raw_desc ++ " " ++ lowerStr raw_text
  let base := if raw_desc ≠ "" then raw_desc else if raw_text ≠ "" then raw_text else ""
  let stripped := trimStr base
  { x := e.x, y := e.y
    distance := ((e.x : ℤ) - (input_x : ℤ)) ^ 2 + ((e.y : ℤ) - (input_y : ℤ)) ^ 2
    hasUpArrow := containsStr raw_desc "↑" || containsStr raw_text "↑"
    hasSendIndicator := ["send", "submit", "arrow", "up"].any (containsStr combined)
    desc := if stripped = "" then "(no desc)" else stripped }

/-- Sort key order of `find_send_button_near_input`:
`(not has_up_arrow, not has_send_indicator, distance)` lexicographically
(`False < True` in Python). -/
def sendLe (a b : SendCand) : Bool :=
  let ka : ℕ × ℕ × ℤ :=
    ((if a.hasUpArrow then 0 else 1), (if a.hasSendIndicator then 0 else 1), a.distance)
  let kb : ℕ × ℕ × ℤ :=
    ((if b.hasUpArrow then 0 else 1), (if b.hasSendIndicator then 0 else 1), b.distance)
  decide (ka.1 < kb.1) ||
    (decide (ka.1 = kb.1) &&
      (decide (ka.2.1 < kb.2.1) || (decide (ka.2.1 = kb.2.1) && decide (ka.2.2 ≤ kb.2.2))))

/-- The hard-coded ChatGPT send-button fallback `(990, 1427)`. -/
def CHATGPT_SEND_BUTTON : ℕ × ℕ := (990, 1427)

/-- Embeds `AccessibilityTree.find_send_button_near_input`: `None` when the
clickable-element list is empty; otherwise the best candidate by `sendLe`,
or the fixed fallback `(990, 1427)` when no element passes the filter. -/
def find_send_button_near_input (tree : List UINode) (input_x input_y : ℕ) :
    Option (ℕ × ℕ × SendCand) :=
  let elements := find_clickable_elements tree
  if elements.isEmpty then none
  else
    let cands := (elements.filter (sendFilter input_x input_y)).map (toSendCand input_x input_y)
    match cands.mergeSort sendLe with
    | best :: _ => some (best.x, best.y, best)
    | [] => some (CHATGPT_SEND_BUTTON.1, CHATGPT_SEND_BUTTON.2,
        { x := CHATGPT_SEND_BUTTON.1, y := CHATGPT_SEND_BUTTON.2,
          distance := 0, hasUpArrow := false, hasSendIndicator := false,
          desc := "send (fallback)" })

/-! #### `find_button_by_keywords` (lines 905-1149).

The method runs six strategies in order and returns the first hit, as
`(center_x, center_y, dict)`; the model returns `(center_x, center_y, text)`
where `text` is the `"text"` entry of the returned dictionary.  The regex
windows `tree[start_pos:start_pos+3000]` (child search) and
`tree[text_pos-8000:text_pos]` (parent search) are modelled through the
character offsets `pos`/`tagEnd` carried by each node. -/

/-- Python `any(keyword in s for keyword in kws)`. -/
def kwAny (kws : List String) (s : String) : Bool := kws.any (containsStr s)

/-- Predicate of method 1 (direct text match): a clickable node carrying a
text attribute whose lowercased text is non-empty and contains a keyword.
No input-field class check is performed here. -/
def fbkDirectPred (kws : List String) (n : UINode) : Bool :=
  n.clickable && n.text.isSome &&
    (let t := lowerStr (n.text.getD ""); !(t = "") && kwAny kws t)

/-- Method 1 of `find_button_by_keywords`: first clickable node with a
matching text attribute, in document order. -/
def fbkMethod1 (tree : List UINode) (kws : List String) : Option (ℕ × ℕ × String) :=
  (tree.find? (fbkDirectPred kws)).map (fun n => (n.cx, n.cy, n.text.getD ""))

/-- Child search of method 1B: the first node with a text attribute lying in
the 3000-character window after the clickable node's tag whose lowercased,
stripped text is non-empty and contains a keyword. -/
def fbkChildOf (kws : List String) (tree : List UINode) (m : UINode) : Option UINode :=
  (tree.filter (fun c =>
      c.text.isSome && decide (m.tagEnd ≤ c.pos) && decide (c.pos < m.tagEnd + 3000))).find?
    (fun c => let t := trimStr (lowerStr (c.text.getD "")); !(t = "") && kwAny kws t)

/-- Method 1B of `find_button_by_keywords`: first clickable node one of whose
window-children has a matching text; returns the clickable node's center with
the child's (raw) text. -/
def fbkMethod1B (tree : List UINode) (kws : List String) : Option (ℕ × ℕ × String) :=
  (tree.find? (fun m => m.clickable && (fbkChildOf kws tree m).isSome)).bind
    (fun m => (fbkChildOf kws tree m).map (fun c => (m.cx, m.cy, c.text.getD "")))

/-- Parent search of method 1C: the last clickable node whose tag lies fully
inside the 8000-character window before the text node's tag. -/
def fbkParentOf (tree : List UINode) (t : UINode) : Option UINode :=
  (tree.filter (fun p =>
      p.clickable && decide (t.pos - 8000 ≤ p.pos) && decide (p.tagEnd ≤ t.pos))).getLast?

/-- Method 1C of `find_button_by_keywords`: first text node (in document
order) with a matching non-empty stripped text that has a clickable parent
in the window before it; returns the parent's center with the stripped text. -/
def fbkMethod1C (tree : List UINode) (kws : List String) : Option (ℕ × ℕ × String) :=
  (tree.find? (fun t =>
      t.text.isSome &&
        (let s := trimStr (lowerStr (t.text.getD "")); !(s = "") && kwAny kws s) &&
        (fbkParentOf tree t).isSome)).bind
    (fun t => (fbkParentOf tree t).map
      (fun p => (p.cx, p.cy, trimStr (t.text.getD ""))))

/-- Method 2 of `find_button_by_keywords`: first clickable node whose
content-desc attribute contains a keyword (no emptiness check). -/
def fbkMethod2 (tree : List UINode) (kws : List String) : Option (ℕ × ℕ × String) :=
  (tree.find? (fun n =>
      n.clickable && n.contentDesc.isSome && kwAny kws (lowerStr (n.contentDesc.getD "")))).map
    (fun n => (n.cx, n.cy, n.contentDesc.getD ""))

/-- Method 3 of `find_button_by_keywords`: first clickable node of a button
class (`"button"` or `"imagebutton"` in the lowered class) whose combined
`text content_desc resource_id` string contains a keyword. -/
def fbkMethod3 (tree : List UINode) (kws : List String) : Option (ℕ × ℕ × String) :=
  (tree.find? (fun n =>
      let cls := lowerStr (n.className.getD "")
      let allText := lowerStr (n.text.getD "") ++ " " ++ lowerStr (n.contentDesc.getD "")
        ++ " " ++ lowerStr (n.resourceId.getD "")
      n.clickable && (containsStr cls "button" || containsStr cls "imagebutton")
        && kwAny kws allText)).map
    (fun n => (n.cx, n.cy,
      n.text.getD (n.contentDesc.getD (n.resourceId.getD "button"))))

/-- Method 4 of `find_button_by_keywords`: position/class fallback over
`find_clickable_elements`, with the Pixel 7A screen constants 1080x2400. -/
def fbkMethod4 (tree : List UINode) (kws : List String) : Option (ℕ × ℕ × String) :=
  ((find_clickable_elements tree).find? (fun e =>
      let w : ℤ := (e.bounds.getD 2 0 : ℤ) - (e.bounds.getD 0 0 : ℤ)
      let h : ℤ := (e.bounds.getD 3 0 : ℤ) - (e.bounds.getD 1 0 : ℤ)
      let cls := lowerStr e.className
      let txt := lowerStr e.text
      let isButtonLike := containsStr cls "button"
        || (w > 200 && h > 50 && w < 1000 && h < 200)
      let isReasonablePosition := decide (300 < e.y) && decide (e.y < 2400 - 200)
        && decide (100 < e.x) && decide (e.x < 1080 - 100)
      isButtonLike && isReasonablePosition && kwAny kws (txt ++ " " ++ cls))).map
    (fun e => (e.x, e.y, if lowerStr e.text = "" then "button" else lowerStr e.text))

/-- Embeds `AccessibilityTree.find_button_by_keywords`: lower the keywords,
then try the six methods in order. -/
def find_button_by_keywords (tree : List UINode) (keywords : List String) :
    Option (ℕ × ℕ × String) :=
  let kws := keywords.map lowerStr
  (fbkMethod1 tree kws).orElse (fun _ =>
  (fbkMethod1B tree kws).orElse (fun _ =>
  (fbkMethod1C tree kws).orElse (fun _ =>
  (fbkMethod2 tree kws).orElse (fun _ =>
  (fbkMethod3 tree kws).orElse (fun _ =>
  fbkMethod4 tree kws)))))

/-! ### `src/agent/orchestrator.py` — the LangGraph workflow

`_build_workflow` (lines 132-212) wires the nodes
`observe → analyze → (authenticate | act) → verify` with conditional edges
from `verify` given by `_is_complete` (lines 2938-2956), plus
`confirm_action`, `execute_query`, `respond`, `handle_error` and `END`.
The agent-state dictionary is modelled by the fields the loop logic reads;
`_observe` (lines 214-241) is embedded exactly, the other node bodies are
parameters of the transition system, constrained only by two facts that
hold for every node of the source: no node other than `_observe` writes
`iteration_count` (line 221 is the only write), and every write to
`error` anywhere in the orchestrator stores a non-empty string literal
(the key is never cleared or set to a falsy value). -/

/-- The tracked fields of the LangGraph agent-state dictionary. -/
structure AgentSt where
  iteration_count : ℕ
  task_complete : Bool
  error : Option String
  needs_auth : Bool
  session_active : Bool
  needs_confirmation : Bool
  needs_query_execution : Bool
  action_success : Bool
  auth_success : Bool
deriving Repr, DecidableEq

/-- Python truthiness of `state.get("error")`: absent or empty is falsy. -/
def errTruthy : Option String → Bool
  | none => false
  | some s => !(s = "")

/-- The local constant `max_iterations = 5` of `_observe`. -/
def max_iterations : ℕ := 5

/-- Embeds `AgentOrchestrator._observe`: increment `iteration_count`
(`state.get("iteration_count", 0) + 1`); when it exceeds `max_iterations`,
record an error, force `task_complete = True` and return early (the screen
capture of the normal branch does not touch the tracked fields). -/
def observeNode (s : AgentSt) : AgentSt :=
  let c := s.iteration_count + 1
  if c > max_iterations then
    { s with iteration_count := c,
             error := some "Maximum iterations reached. Task may be incomplete.",
             task_complete := true }
  else
    { s with iteration_count := c }

/-- Routing labels returned by `_is_complete`. -/
inductive Route
  | rAuthenticate
  | rComplete
  | rConfirm
  | rExecuteQuery
  | rError
  | rContinue
deriving Repr, DecidableEq

/-- Embeds `AgentOrchestrator._is_complete`, in source order. -/
def is_complete (s : AgentSt) : Route :=
  if s.needs_auth then .rAuthenticate
  else if s.task_complete && !s.session_active then .rComplete
  else if s.needs_confirmation then .rConfirm
  else if s.needs_query_execution then .rExecuteQuery
  else if errTruthy s.error && !s.session_active then .rError
  else if s.session_active then .rComplete
  else .rContinue

/-- The graph nodes (`END` is `finished`). -/
inductive GraphNode
  | observe
  | analyze
  | act
  | authenticate
  | verify
  | confirmAction
  | executeQuery
  | respond
  | handleError
  | finished
deriving Repr, DecidableEq

/-- The node bodies the transition system is parametric in, plus the
`_should_authenticate` router (modelled as a Boolean: `true` routes
`analyze → authenticate`, `false` routes `analyze → act`). -/
structure NodeFuns where
  analyzeF : AgentSt → AgentSt
  actF : AgentSt → AgentSt
  authF : AgentSt → AgentSt
  verifyF : AgentSt → AgentSt
  confirmF : AgentSt → AgentSt
  execF : AgentSt → AgentSt
  respondF : AgentSt → AgentSt
  errF : AgentSt → AgentSt
  routerAuth : AgentSt → Bool

/-- One superstep of the compiled workflow: run the current node's body,
then follow the (conditional) edge of `_build_workflow`. -/
def stepG (F : NodeFuns) : GraphNode × AgentSt → GraphNode × AgentSt
  | (.observe, s) => (.analyze, observeNode s)
  | (.analyze, s) =>
      let s' := F.analyzeF s
      (if F.routerAuth s' then .authenticate else .act, s')
  | (.act, s) => (.verify, F.actF s)
  | (.authenticate, s) => (.verify, F.authF s)
  | (.verify, s) =>
      let s' := F.verifyF s
      (match is_complete s' with
        | .rAuthenticate => .authenticate
        | .rComplete => .respond
        | .rConfirm => .confirmAction
        | .rExecuteQuery => .executeQuery
        | .rError => .handleError
        | .rContinue => .observe, s')
  | (.confirmAction, s) =>
      let s' := F.confirmF s
      (if s'.needs_query_execution then .executeQuery else .respond, s')
  | (.executeQuery, s) => (.respond, F.execF s)
  | (.respond, s) => (.finished, F.respondF s)
  | (.handleError, s) => (.respond, F.errF s)
  | (.finished, s) => (.finished, s)

/-- The execution trace from the entry point `observe`. -/
def traceG (F : NodeFuns) (s0 : AgentSt) : ℕ → GraphNode × AgentSt
  | 0 => (.observe, s0)
  | n + 1 => stepG F (traceG F s0 n)

/-- Number of entries into `observe` among the first `n` trace positions. -/
def observeVisits (F : NodeFuns) (s0 : AgentSt) (n : ℕ) : ℕ :=
  ((List.range n).filter (fun k => (traceG F s0 k).1 = GraphNode.observe)).length

/-- The two facts used about every node body of the source: it does not
write `iteration_count`, and it never turns a set (truthy) `error` into a
falsy one. -/
def preservesLoopFields (f : AgentSt → AgentSt) : Prop :=
  ∀ s, (f s).iteration_count = s.iteration_count ∧
    (errTruthy s.error = true → errTruthy (f s).error = true)

/-- All eight node bodies satisfy `preservesLoopFields`. -/
def goodFuns (F : NodeFuns) : Prop :=
  preservesLoopFields F.analyzeF ∧ preservesLoopFields F.actF ∧
  preservesLoopFields F.authF ∧ preservesLoopFields F.verifyF ∧
  preservesLoopFields F.confirmF ∧ preservesLoopFields F.execF ∧
  preservesLoopFields F.respondF ∧ preservesLoopFields F.errF

/-- Embeds the failure branch of `_authenticate` (lines 307-343), the case
where Google login is not already complete and `_perform_llm_guided_login`
returns `(False, msg)`: sets `auth_success`, `action_success` to `False`,
stores the message in `error`, sets `task_complete = False`, and leaves
`needs_auth` untouched. -/
def authFailNode (msg : String) (s : AgentSt) : AgentSt :=
  { s with auth_success := false, action_success := false,
           error := some msg, task_complete := false }

/-- Concrete node bodies for a run in which the user asked to log in and
authentication always fails.  `_analyze` sets `needs_auth = wants_login`
(line 273), modelled for a login intent; `_verify` returns the state
unchanged whenever `action_success` is falsy (its whole body is guarded by
`if state.get("action_success", False)`, lines 2605-2935), and
`action_success` is `False` throughout this run; `_should_authenticate`
returns `"authenticate"` when `needs_auth` is set and no Google login is
complete (lines 283-305).  The remaining bodies are never reached. -/
def authLoopFuns : NodeFuns :=
  { analyzeF := fun s => { s with needs_auth := true }
    actF := id
    authF := authFailNode "Login failed: could not find login button"
    verifyF := id
    confirmF := id
    execF := id
    respondF := id
    errF := id
    routerAuth := fun _ => true }

/-- The initial agent state of `process_command` (lines 5553-5561):
`action_success = False`, `task_complete = False`, `iteration_count = 0`,
`session_active = False`, all other tracked keys absent (falsy). -/
def initialAgentSt : AgentSt :=
  { iteration_count := 0, task_complete := false, error := none,
    needs_auth := false, session_active := false, needs_confirmation := false,
    needs_query_execution := false, action_success := false, auth_success := false }

/-! ### Concrete dumps used as test inputs. -/

/-- Dump with two qualifying large buttons, centers y = 900 and y = 400
(listed bottom-most first, so sorting matters). -/
def twoButtonTree : List UINode :=
  [ { pos := 0, tagEnd := 200, clickable := true, x1 := 0, y1 := 850, x2 := 400, y2 := 950,
      text := some "Continue with SSO", className := some "android.widget.Button" },
    { pos := 200, tagEnd := 400, clickable := true, x1 := 0, y1 := 350, x2 := 400, y2 := 450,
      text := some "Continue with Google", className := some "android.widget.Button" } ]

/-- A clickable editable input field whose text matches the keyword
`"login"`. -/
def editTextNode : UINode :=
  { pos := 0, tagEnd := 150, clickable := true, x1 := 0, y1 := 0, x2 := 400, y2 := 100,
    text := some "Login", className := some "android.widget.EditText" }

/-- Dump consisting of only `editTextNode`. -/
def editTextTree : List UINode := [editTextNode]

/-- A single large clickable non-input button, strictly larger than
300 x 80. -/
def singletonButtonNode : UINode :=
  { pos := 0, tagEnd := 120, clickable := true, x1 := 0, y1 := 1000, x2 := 400, y2 := 1100,
    text := some "Continue", className := some "android.widget.Button" }

/-- Dump consisting of only `singletonButtonNode`. -/
def singletonButtonTree : List UINode := [singletonButtonNode]

/-- A zero-area clickable node with no attributes beyond its bounds. -/
def zeroAreaNode : UINode :=
  { pos := 0, tagEnd := 80, clickable := true, x1 := 10, y1 := 10, x2 := 10, y2 := 10 }

/-- Dump consisting of only `zeroAreaNode`. -/
def zeroAreaTree : List UINode := [zeroAreaNode]

/-- Dump with exactly one clickable non-input element of size exactly
300 x 80 (i.e. at least 300 x 80). -/
def boundary300x80Tree : List UINode :=
  [ { pos := 0, tagEnd := 120, clickable := true, x1 := 0, y1 := 1000, x2 := 300, y2 := 1080,
      text := some "Log in", className := some "android.widget.Button" } ]

/-- Dump with one clickable element that fails every positional filter of
the send-button search (tiny, and to the left of the input field). -/
def smallCornerTree : List UINode :=
  [ { pos := 0, tagEnd := 90, clickable := true, x1 := 0, y1 := 0, x2 := 10, y2 := 10,
      className := some "android.widget.ImageView" } ]

/-! ### Helper lemmas. -/

/-- Truncating a non-negative rational to its floor and mapping back through
division by a scale factor of at least 1 moves the value by at most 1. -/
theorem floor_shift_div_close (t c s : ℚ) (hs : 1 ≤ s) :
    |((⌊t⌋ : ℚ) - c) / s - (t - c) / s| ≤ 1 := by
  have hs0 : 0 < s := lt_of_lt_of_le one_pos hs
  have heq : ((⌊t⌋ : ℚ) - c) / s - (t - c) / s = ((⌊t⌋ : ℚ) - t) / s := by ring
  rw [heq, abs_div, abs_of_pos hs0]
  have h1 : |(⌊t⌋ : ℚ) - t| ≤ 1 := by
    rw [abs_sub_comm]
    rw [abs_of_nonneg (by linarith [Int.floor_le t])]
    linarith [Int.lt_floor_add_one t]
  calc |(⌊t⌋ : ℚ) - t| / s ≤ 1 / s := by gcongr
    _ ≤ 1 := by rw [div_le_one hs0]; exact hs

/-- C1, amended part: with truncation instead of rounding, the round-trip
law holds whenever the device is at least as large as the vision image in
each axis (scale factors at least 1). -/
theorem map_vision_round_trip_close (SW SH SBH sw sh x_vision y_vision : ℤ)
    (hsw : 0 < sw) (hsh : 0 < sh) (hWsw : sw ≤ SW) (hHsh : sh ≤ SH)
    (hSBH : 0 ≤ SBH) (hx0 : 0 ≤ x_vision) (hxw : x_vision ≤ sw)
    (hy0 : 0 ≤ y_vision) (hyh : y_vision ≤ sh) :
    |(vision_round_trip SW SH SBH x_vision y_vision sw sh).1 - (x_vision : ℚ)| ≤ 1 ∧
    |(vision_round_trip SW SH SBH x_vision y_vision sw sh).2 - (y_vision : ℚ)| ≤ 1 := by
  have hswq : (0 : ℚ) < (sw : ℚ) := by exact_mod_cast hsw
  have hshq : (0 : ℚ) < (sh : ℚ) := by exact_mod_cast hsh
  have hsx : (1 : ℚ) ≤ (SW : ℚ) / (sw : ℚ) := by
    rw [le_div_iff₀ hswq, one_mul]; exact_mod_cast hWsw
  have hsy : (1 : ℚ) ≤ (SH : ℚ) / (sh : ℚ) := by
    rw [le_div_iff₀ hshq, one_mul]; exact_mod_cast hHsh
  have hsx0 : (0 : ℚ) < (SW : ℚ) / (sw : ℚ) := lt_of_lt_of_le one_pos hsx
  have hsy0 : (0 : ℚ) < (SH : ℚ) / (sh : ℚ) := lt_of_lt_of_le one_pos hsy
  have hx0q : (0 : ℚ) ≤ (x_vision : ℚ) := by exact_mod_cast hx0
  have hy0q : (0 : ℚ) ≤ (y_vision : ℚ) := by exact_mod_cast hy0
  have hSBHq : (0 : ℚ) ≤ (SBH : ℚ) := by exact_mod_cast hSBH
  have htx : (0 : ℚ) ≤ (x_vision : ℚ) * ((SW : ℚ) / (sw : ℚ)) :=
    mul_nonneg hx0q (le_of_lt hsx0)
  have hty : (0 : ℚ) ≤ (y_vision : ℚ) * ((SH : ℚ) / (sh : ℚ)) + (SBH : ℚ) := by
    have := mul_nonneg hy0q (le_of_lt hsy0); linarith
  simp only [vision_round_trip, map_vision_to_device_coords, pytrunc,
    if_pos hsw, if_pos hsh, if_pos htx, if_pos hty]
  constructor
  · have h := floor_shift_div_close ((x_vision : ℚ) * ((SW : ℚ) / (sw : ℚ))) 0
      ((SW : ℚ) / (sw : ℚ)) hsx
    have hxeq : ((x_vision : ℚ) * ((SW : ℚ) / (sw : ℚ)) - 0) / ((SW : ℚ) / (sw : ℚ))
        = (x_vision : ℚ) := by
      rw [sub_zero, mul_div_cancel_right₀ _ (ne_of_gt hsx0)]
    rw [hxeq] at h
    simpa using h
  · have h := floor_shift_div_close ((y_vision : ℚ) * ((SH : ℚ) / (sh : ℚ)) + (SBH : ℚ))
      (SBH : ℚ) ((SH : ℚ) / (sh : ℚ)) hsy
    have hyeq : ((y_vision : ℚ) * ((SH : ℚ) / (sh : ℚ)) + (SBH : ℚ) - (SBH : ℚ))
        / ((SH : ℚ) / (sh : ℚ)) = (y_vision : ℚ) := by
      rw [add_sub_cancel_right, mul_div_cancel_right₀ _ (ne_of_gt hsy0)]
    rw [hyeq] at h
    exact h

/-- C1, counterexample: at device 1000 x 1000, status bar 50, vision image
3000 x 3000 (all positive) and the in-bounds vision point (5, 5), the
transform maps to device (1, 51) and the inverse scaling recovers (3, 3),
which is 2 pixels away from the original in each axis — the round-trip law
as claimed fails. -/
theorem C1_counterexample :
    (0 : ℤ) < 1000 ∧ (0 : ℤ) < 3000 ∧ (0 : ℤ) ≤ 5 ∧ (5 : ℤ) ≤ 3000 ∧
    map_vision_to_device_coords 1000 1000 50 5 5 3000 3000 = (1, 51) ∧
    vision_round_trip 1000 1000 50 5 5 3000 3000 = (3, 3) ∧
    ¬ (|(vision_round_trip 1000 1000 50 5 5 3000 3000).1 - (5 : ℚ)| ≤ 1) ∧
    ¬ (|(vision_round_trip 1000 1000 50 5 5 3000 3000).2 - (5 : ℚ)| ≤ 1) := by
  have hmap : map_vision_to_device_coords 1000 1000 50 5 5 3000 3000 = (1, 51) := by
    simp only [map_vision_to_device_coords, pytrunc]
    norm_num
  have hrt : vision_round_trip 1000 1000 50 5 5 3000 3000 = (3, 3) := by
    simp only [vision_round_trip, hmap]
    norm_num
  refine ⟨by norm_num, by norm_num, by norm_num, by norm_num, hmap, hrt, ?_, ?_⟩
  · rw [hrt]; norm_num
  · rw [hrt]; norm_num

/-- C1, witness for the amended theorem at device 1000 x 1000, status bar 50,
vision image 500 x 500, vision point (3, 3). -/
theorem C1_witness :
    |(vision_round_trip 1000 1000 50 3 3 500 500).1 - (3 : ℚ)| ≤ 1 ∧
    |(vision_round_trip 1000 1000 50 3 3 500 500).2 - (3 : ℚ)| ≤ 1 :=
  map_vision_round_trip_close 1000 1000 50 500 500 3 3 (by norm_num) (by norm_num)
    (by norm_num) (by norm_num) (by norm_num) (by norm_num) (by norm_num)
    (by norm_num) (by norm_num)

/-- C2, amended: `tap` rejects (issues no ADB tap) exactly the coordinate
pairs with `x <= 0` or `y <= 0`; for positive coordinates it clamps each
axis to the screen bound and taps at the clamped position — so out-of-range
positive coordinates are clamped and tapped rather than rejected. -/
theorem tap_clamps_positive_rejects_nonpositive (SW SH x y : ℤ)
    (hW : 0 < SW) (hH : 0 < SH) :
    ((x ≤ 0 ∨ y ≤ 0) → tap SW SH x y = none) ∧
    (0 < x → 0 < y → tap SW SH x y = some (min x SW, min y SH)) := by
  constructor
  · intro h
    simp only [tap]
    rcases h with hx | hy
    · have hx0 : max 0 (min x SW) = 0 := by
        rcases le_total x SW with h1 | h1
        · simp [min_eq_left h1, max_eq_left hx]
        · simp [min_eq_right h1]
          omega
      by_cases hy0 : max 0 (min y SH) = 0
      · rw [if_pos ⟨hx0, hy0⟩]
      · rw [if_neg (by tauto), if_pos (Or.inl (le_of_eq hx0))]
    · have hy0 : max 0 (min y SH) = 0 := by
        rcases le_total y SH with h1 | h1
        · simp [min_eq_left h1, max_eq_left hy]
        · simp [min_eq_right h1]
          omega
      by_cases hx0 : max 0 (min x SW) = 0
      · rw [if_pos ⟨hx0, hy0⟩]
      · rw [if_neg (by tauto), if_pos (Or.inr (le_of_eq hy0))]
  · intro hx hy
    have hxm : max 0 (min x SW) = min x SW := max_eq_right (le_min (le_of_lt hx) (le_of_lt hW))
    have hym : max 0 (min y SH) = min y SH := max_eq_right (le_min (le_of_lt hy) (le_of_lt hH))
    have hxpos : 0 < min x SW := lt_min hx hW
    have hypos : 0 < min y SH := lt_min hy hH
    simp only [tap, hxm, hym]
    rw [if_neg (by intro h; omega), if_neg (by intro h; omega)]

/-- C2, counterexample: the point (2000, 1200) lies outside the
1080 x 2400 screen, yet `tap` does not reject it — it clamps x to 1080 and
issues the tap at (1080, 1200). -/
theorem C2_counterexample :
    ¬ ((2000 : ℤ) ≤ 1080) ∧ tap 1080 2400 2000 1200 = some (1080, 1200) := by
  constructor
  · norm_num
  · simp only [tap]
    norm_num

/-- C2, witness for the amended theorem at screen 1080 x 2400: (-5, 300) is
rejected without a tap, and (2000, 1200) is clamped to (1080, 1200). -/
theorem C2_witness :
    tap 1080 2400 (-5) 300 = none ∧ tap 1080 2400 2000 1200 = some (1080, 1200) := by
  constructor
  · exact (tap_clamps_positive_rejects_nonpositive 1080 2400 (-5) 300 (by norm_num)
      (by norm_num)).1 (Or.inl (by norm_num))
  · have h := (tap_clamps_positive_rejects_nonpositive 1080 2400 2000 1200 (by norm_num)
      (by norm_num)).2 (by norm_num) (by norm_num)
    simpa using h

/-- C5: `_validate_coordinates` rejects every point with `y < 100`
(the fixed status-bar margin `STATUS_BAR_MAX`), regardless of x and of the
screen dimensions. -/
theorem validate_coordinates_rejects_status_bar (SW SH x y : ℤ) (hy : y < 100) :
    validate_coordinates SW SH x y = false := by
  simp only [validate_coordinates]
  by_cases h1 : x < 1 ∨ y < 1
  · rw [if_pos h1]
  · rw [if_neg h1]
    by_cases h2 : x > SW ∨ y > SH
    · rw [if_pos h2]
    · rw [if_neg h2, if_pos hy]

/-- C5, witness: (540, 50) is rejected on the 1080 x 2400 screen. -/
theorem C5_witness : validate_coordinates 1080 2400 540 50 = false :=
  validate_coordinates_rejects_status_bar 1080 2400 540 50 (by norm_num)

/-- When every attempt in range fails, the retry loop returns `none` after
sleeping `max_retries - 1` doubling delays. -/
theorem retryAux_exhaust {α : Type} (act : ℕ → Option α) :
    ∀ (r a : ℕ) (d : ℚ), (∀ i, i < r → act (a + i) = none) →
      retryAux act a r d = (none, (List.range (r - 1)).map (fun i => d * 2 ^ i)) := by
  intro r
  induction r with
  | zero => intro a d _; simp [retryAux]
  | succ r ih =>
    intro a d h
    have h0 : act a = none := by simpa using h 0 (Nat.succ_pos r)
    by_cases hr : r = 0
    · subst hr; simp [retryAux, h0]
    · have hshift : ∀ i, i < r → act (a + 1 + i) = none := by
        intro i hi
        have := h (i + 1) (by omega)
        have harr : a + (i + 1) = a + 1 + i := by omega
        rwa [harr] at this
      have hrec := ih (a + 1) (d * 2) hshift
      simp only [retryAux, h0, if_neg hr, hrec]
      have hlist : (List.range (r + 1 - 1)).map (fun i => d * 2 ^ i)
          = d :: (List.range (r - 1)).map (fun i => d * 2 * 2 ^ i) := by
        have hr1 : r + 1 - 1 = (r - 1) + 1 := by omega
        rw [hr1, List.range_succ_eq_map]
        simp only [List.map_cons, List.map_map, pow_zero, mul_one, List.cons.injEq]
        refine ⟨trivial, List.map_congr_left ?_⟩
        intro i _
        simp only [Function.comp_apply, pow_succ]
        ring
      rw [hlist]

/-- The retry loop returns the first truthy result immediately, having slept
one doubling delay per preceding failed attempt. -/
theorem retryAux_first_success {α : Type} (act : ℕ → Option α) (v : α) :
    ∀ (i r a : ℕ) (d : ℚ), i < r → act (a + i) = some v →
      (∀ j, j < i → act (a + j) = none) →
      retryAux act a r d = (some v, (List.range i).map (fun j => d * 2 ^ j)) := by
  intro i
  induction i with
  | zero =>
    intro r a d hir hv _
    obtain ⟨r', rfl⟩ : ∃ r', r = r' + 1 := ⟨r - 1, by omega⟩
    have hv0 : act a = some v := by simpa using hv
    simp [retryAux, hv0]
  | succ i ih =>
    intro r a d hir hv hj
    obtain ⟨r', rfl⟩ : ∃ r', r = r' + 1 := ⟨r - 1, by omega⟩
    have h0 : act a = none := by simpa using hj 0 (Nat.succ_pos i)
    have hr' : r' ≠ 0 := by omega
    have hv' : act (a + 1 + i) = some v := by
      have harr : a + (i + 1) = a + 1 + i := by omega
      rwa [harr] at hv
    have hj' : ∀ j, j < i → act (a + 1 + j) = none := by
      intro j hji
      have := hj (j + 1) (by omega)
      have harr : a + (j + 1) = a + 1 + j := by omega
      rwa [harr] at this
    have hrec := ih r' (a + 1) (d * 2) (by omega) hv' hj'
    simp only [retryAux, h0, if_neg hr', hrec]
    have hlist : (List.range (i + 1)).map (fun j => d * 2 ^ j)
        = d :: (List.range i).map (fun j => d * 2 * 2 ^ j) := by
      rw [List.range_succ_eq_map]
      simp only [List.map_cons, List.map_map, pow_zero, mul_one, List.cons.injEq]
      refine ⟨trivial, List.map_congr_left ?_⟩
      intro j _
      simp only [Function.comp_apply, pow_succ]
      ring
    rw [hlist]

/-- The retry loop consults the action on at most the attempt indices in
`range max_retries`: two actions agreeing there produce identical runs. -/
theorem retryAux_congr {α : Type} (act act2 : ℕ → Option α) :
    ∀ (r a : ℕ) (d : ℚ), (∀ i, i < r → act (a + i) = act2 (a + i)) →
      retryAux act a r d = retryAux act2 a r d := by
  intro r
  induction r with
  | zero => intro a d _; simp [retryAux]
  | succ r ih =>
    intro a d h
    have h0 : act a = act2 a := by simpa using h 0 (Nat.succ_pos r)
    have hrec := ih (a + 1) (d * 2) (fun i hi => by
      have := h (i + 1) (by omega)
      have harr : a + (i + 1) = a + 1 + i := by omega
      rwa [harr] at this)
    simp only [retryAux, ← h0, hrec]

/-- C6: `retry_with_backoff` returns "exhausted" (`None`) after exactly
`max_retries` failed attempts with the pure doubling backoff schedule and
no delay after the final attempt; it returns the first truthy result
immediately after one delay per preceding failure; and it never consults
the action beyond the first `max_retries` attempt indices. -/
theorem retry_with_backoff_spec {α : Type} (act : ℕ → Option α)
    (max_retries : ℕ) (retry_delay : ℚ) :
    ((∀ i, i < max_retries → act i = none) →
      retry_with_backoff act max_retries retry_delay
        = (none, (List.range (max_retries - 1)).map (fun i => retry_delay * 2 ^ i))) ∧
    (∀ i v, i < max_retries → act i = some v → (∀ j, j < i → act j = none) →
      retry_with_backoff act max_retries retry_delay
        = (some v, (List.range i).map (fun j => retry_delay * 2 ^ j))) ∧
    (∀ act2 : ℕ → Option α, (∀ i, i < max_retries → act i = act2 i) →
      retry_with_backoff act max_retries retry_delay
        = retry_with_backoff act2 max_retries retry_delay) := by
  refine ⟨?_, ?_, ?_⟩
  · intro h
    exact retryAux_exhaust act max_retries 0 retry_delay (fun i hi => by
      simpa using h i hi)
  · intro i v hi hv hj
    exact retryAux_first_success act v i max_retries 0 retry_delay hi
      (by simpa using hv) (fun j hji => by simpa using hj j hji)
  · intro act2 h
    exact retryAux_congr act act2 max_retries 0 retry_delay (fun i hi => by
      simpa using h i hi)

/-- C6, witness: with `max_retries = 3` and `retry_delay = 2` and an action
that always fails, the result is "exhausted" and the observed delays are
exactly 2 then 4 seconds. -/
theorem C6_witness :
    retry_with_backoff (fun _ => (none : Option ℕ)) 3 2 = (none, [2, 4]) := by
  have h := (retry_with_backoff_spec (fun _ => (none : Option ℕ)) 3 2).1
    (fun _ _ => rfl)
  rw [h]
  norm_num [List.range_succ]

/-- `_observe` increments the iteration counter on every entry. -/
theorem observeNode_iteration (s : AgentSt) :
    (observeNode s).iteration_count = s.iteration_count + 1 := by
  simp only [observeNode]
  split <;> rfl

/-- The `_observe` guard: past `max_iterations`, the task is forced complete
with a (truthy) error. -/
theorem observeNode_guard (s : AgentSt) (h : s.iteration_count + 1 > max_iterations) :
    (observeNode s).task_complete = true ∧ errTruthy (observeNode s).error = true := by
  have htc : (observeNode s).task_complete = true := by
    simp [observeNode, if_pos h]
  have herr : (observeNode s).error
      = some "Maximum iterations reached. Task may be incomplete." := by
    simp [observeNode, if_pos h]
  refine ⟨htc, ?_⟩
  rw [herr]
  decide

/-- One superstep changes the iteration counter exactly on entries into
`observe` (for node bodies that do not write it). -/
theorem stepG_iteration (F : NodeFuns) (hF : goodFuns F) (c : GraphNode × AgentSt) :
    (stepG F c).2.iteration_count =
      if c.1 = GraphNode.observe then c.2.iteration_count + 1 else c.2.iteration_count := by
  obtain ⟨hana, hact, hauth, hver, hconf, hexec, hresp, herr⟩ := hF
  obtain ⟨nd, s⟩ := c
  cases nd
  case observe => exact observeNode_iteration s
  case analyze => exact (hana s).1
  case act => exact (hact s).1
  case authenticate => exact (hauth s).1
  case verify => exact (hver s).1
  case confirmAction => exact (hconf s).1
  case executeQuery => exact (hexec s).1
  case respond => exact (hresp s).1
  case handleError => exact (herr s).1
  case finished => exact rfl

/-- One superstep never clears a set error (for node bodies that never do). -/
theorem stepG_error (F : NodeFuns) (hF : goodFuns F) (c : GraphNode × AgentSt)
    (h : errTruthy c.2.error = true) : errTruthy (stepG F c).2.error = true := by
  obtain ⟨hana, hact, hauth, hver, hconf, hexec, hresp, herr⟩ := hF
  obtain ⟨nd, s⟩ := c
  cases nd
  case observe =>
    show errTruthy (observeNode s).error = true
    simp only [observeNode]
    split
    · show errTruthy (some "Maximum iterations reached. Task may be incomplete.") = true
      decide
    · exact h
  case analyze => exact (hana s).2 h
  case act => exact (hact s).2 h
  case authenticate => exact (hauth s).2 h
  case verify => exact (hver s).2 h
  case confirmAction => exact (hconf s).2 h
  case executeQuery => exact (hexec s).2 h
  case respond => exact (hresp s).2 h
  case handleError => exact (herr s).2 h
  case finished => exact h

/-- `_is_complete` answers `"continue"` only on states with no (truthy)
error and no active session. -/
theorem is_complete_continue (s : AgentSt) (h : is_complete s = Route.rContinue) :
    errTruthy s.error = false ∧ s.session_active = false := by
  unfold is_complete at h
  split_ifs at h with h1 h2 h3 h4 h5 h6
  have hsa : s.session_active = false := by
    revert h6; cases s.session_active <;> simp
  have herr : errTruthy s.error = false := by
    revert h5; rw [hsa]; cases errTruthy s.error <;> simp
  exact ⟨herr, hsa⟩

/-- The only edge into `observe` is the `"continue"` answer of
`_is_complete`, so the state entering `observe` carries no error. -/
theorem observe_entry_no_error (F : NodeFuns) (c : GraphNode × AgentSt)
    (h : (stepG F c).1 = GraphNode.observe) : errTruthy (stepG F c).2.error = false := by
  obtain ⟨nd, s⟩ := c
  cases nd
  case observe =>
    have h' : GraphNode.analyze = GraphNode.observe := h
    simp at h'
  case analyze =>
    have h' : (if F.routerAuth (F.analyzeF s) then GraphNode.authenticate else GraphNode.act)
        = GraphNode.observe := h
    split at h' <;> simp at h'
  case act =>
    have h' : GraphNode.verify = GraphNode.observe := h
    simp at h'
  case authenticate =>
    have h' : GraphNode.verify = GraphNode.observe := h
    simp at h'
  case verify =>
    have h' : (match is_complete (F.verifyF s) with
        | Route.rAuthenticate => GraphNode.authenticate
        | Route.rComplete => GraphNode.respond
        | Route.rConfirm => GraphNode.confirmAction
        | Route.rExecuteQuery => GraphNode.executeQuery
        | Route.rError => GraphNode.handleError
        | Route.rContinue => GraphNode.observe) = GraphNode.observe := h
    show errTruthy (F.verifyF s).error = false
    cases hr : is_complete (F.verifyF s)
    case rContinue => exact (is_complete_continue _ hr).1
    all_goals (rw [hr] at h'; simp at h')
  case confirmAction =>
    have h' : (if (F.confirmF s).needs_query_execution then GraphNode.executeQuery
        else GraphNode.respond) = GraphNode.observe := h
    split at h' <;> simp at h'
  case executeQuery =>
    have h' : GraphNode.respond = GraphNode.observe := h
    simp at h'
  case respond =>
    have h' : GraphNode.finished = GraphNode.observe := h
    simp at h'
  case handleError =>
    have h' : GraphNode.respond = GraphNode.observe := h
    simp at h'
  case finished =>
    have h' : GraphNode.finished = GraphNode.observe := h
    simp at h'

/-- The bundled loop invariant of the workflow trace: the counter stays at
most `max_iterations + 1`, a counter past `max_iterations` comes with a set
error, a state sitting at `observe` has counter at most `max_iterations`,
and the counter equals the number of `observe` entries so far. -/
theorem trace_invariant (F : NodeFuns) (hF : goodFuns F) (s0 : AgentSt)
    (h0 : s0.iteration_count = 0) (n : ℕ) :
    (traceG F s0 n).2.iteration_count ≤ max_iterations + 1 ∧
    (max_iterations + 1 ≤ (traceG F s0 n).2.iteration_count →
      errTruthy (traceG F s0 n).2.error = true) ∧
    ((traceG F s0 n).1 = GraphNode.observe →
      (traceG F s0 n).2.iteration_count ≤ max_iterations) ∧
    (traceG F s0 n).2.iteration_count = observeVisits F s0 n := by
  induction n with
  | zero =>
    refine ⟨by simp [traceG, h0], by simp [traceG, h0, max_iterations],
      by simp [traceG, h0], by simp [traceG, h0, observeVisits]⟩
  | succ n ih =>
    obtain ⟨ih1, ih2, ih3, ih4⟩ := ih
    have hstep : traceG F s0 (n + 1) = stepG F (traceG F s0 n) := rfl
    have hiter := stepG_iteration F hF (traceG F s0 n)
    have hvisits : observeVisits F s0 (n + 1) =
        observeVisits F s0 n + (if (traceG F s0 n).1 = GraphNode.observe then 1 else 0) := by
      simp only [observeVisits, List.range_succ, List.filter_append, List.length_append]
      congr 1
      split <;> simp [*]
    have h2 : max_iterations + 1 ≤ (traceG F s0 (n + 1)).2.iteration_count →
        errTruthy (traceG F s0 (n + 1)).2.error = true := by
      intro hge
      rw [hstep, hiter] at hge
      by_cases hobs : (traceG F s0 n).1 = GraphNode.observe
      · rw [if_pos hobs] at hge
        rw [hstep]
        have hc : traceG F s0 n = (GraphNode.observe, (traceG F s0 n).2) := by
          rw [← hobs]
        rw [hc]
        simp only [stepG]
        exact (observeNode_guard _ (by omega)).2
      · rw [if_neg hobs] at hge
        exact stepG_error F hF _ (ih2 hge)
    refine ⟨?_, h2, ?_, ?_⟩
    · rw [hstep, hiter]
      by_cases hobs : (traceG F s0 n).1 = GraphNode.observe
      · rw [if_pos hobs]
        have := ih3 hobs
        omega
      · rw [if_neg hobs]
        exact ih1
    · intro hob
      have herr := observe_entry_no_error F (traceG F s0 n) (by rw [← hstep]; exact hob)
      rw [← hstep] at herr
      by_contra hgt
      have : max_iterations + 1 ≤ (traceG F s0 (n + 1)).2.iteration_count := by omega
      have htrue := h2 this
      rw [htrue] at herr
      simp at herr
    · rw [hstep, hiter, hvisits, ih4]
      split <;> rfl

/-- C4, amended: `_observe` increments `iteration_count` on every entry and,
once the counter exceeds `max_iterations`, sets an error and forces
`task_complete = True`; consequently — because no other node writes the
counter and no node ever clears a set error — any workflow execution enters
`observe` at most `max_iterations + 1` times (the last entry being the
early-exit one), i.e. the loop never cycles through `observe` unboundedly.
(Full termination of the graph is not guaranteed: see the counterexample.) -/
theorem observe_cycling_bounded :
    (∀ s, (observeNode s).iteration_count = s.iteration_count + 1) ∧
    (∀ s, s.iteration_count + 1 > max_iterations →
      (observeNode s).task_complete = true ∧ errTruthy (observeNode s).error = true) ∧
    (∀ (F : NodeFuns) (s0 : AgentSt), goodFuns F → s0.iteration_count = 0 →
      ∀ n, observeVisits F s0 n ≤ max_iterations + 1) :=
  ⟨observeNode_iteration, observeNode_guard,
    fun F s0 hF h0 n => by
      have h := trace_invariant F hF s0 h0 n
      omega⟩

/-- C4, witness: for the concrete all-failing-login instantiation
`authLoopFuns` from the initial state of `process_command`, the first 40
supersteps enter `observe` at most `max_iterations + 1` times, and the
`observe` guard fires on a concrete state with counter 5. -/
theorem C4_witness :
    observeVisits authLoopFuns initialAgentSt 40 ≤ max_iterations + 1 ∧
    (observeNode { initialAgentSt with iteration_count := 5 }).task_complete = true := by
  constructor
  · exact observe_cycling_bounded.2.2 authLoopFuns initialAgentSt
      ⟨fun s => ⟨rfl, fun h => h⟩, fun s => ⟨rfl, fun h => h⟩,
        fun s => ⟨rfl, fun _ =>
          show errTruthy (some "Login failed: could not find login button") = true
            by decide⟩,
        fun s => ⟨rfl, fun h => h⟩,
        fun s => ⟨rfl, fun h => h⟩, fun s => ⟨rfl, fun h => h⟩,
        fun s => ⟨rfl, fun h => h⟩, fun s => ⟨rfl, fun h => h⟩⟩
      rfl 40
  · exact (observeNode_guard _ (by decide)).1

/-- The fixed agent state of the failing authentication cycle. -/
def authLoopSt : AgentSt :=
  { iteration_count := 1, task_complete := false,
    error := some "Login failed: could not find login button",
    needs_auth := true, session_active := false, needs_confirmation := false,
    needs_query_execution := false, action_success := false, auth_success := false }

/-- From superstep 3 on, the failing-login run alternates between `verify`
and `authenticate` with the fixed state `authLoopSt`. -/
theorem authLoop_cycle (k : ℕ) :
    traceG authLoopFuns initialAgentSt (3 + k)
      = (if k % 2 = 0 then (GraphNode.verify, authLoopSt)
         else (GraphNode.authenticate, authLoopSt)) := by
  induction k with
  | zero => decide
  | succ k ih =>
    have hs : traceG authLoopFuns initialAgentSt (3 + (k + 1))
        = stepG authLoopFuns (traceG authLoopFuns initialAgentSt (3 + k)) := rfl
    rcases Nat.mod_two_eq_zero_or_one k with hk | hk
    · rw [hs, ih, if_pos hk, if_neg (by omega)]
      decide
    · rw [hs, ih, if_neg (by omega), if_pos (by omega)]
      decide

/-- C4, counterexample: a task on which every action fails and for which the
orchestration loop never terminates.  With the initial state of
`process_command` and the node behaviours of a login task whose
authentication always fails (`authLoopFuns`), the workflow never reaches
`END`: from step 3 on it cycles `verify → authenticate → verify → ...`
(without ever re-entering `observe`), `action_success` staying `False`
throughout, so the claimed "terminates within maxIterations iterations for
every task" is false. -/
theorem C4_counterexample :
    (¬ ∃ n, (traceG authLoopFuns initialAgentSt n).1 = GraphNode.finished) ∧
    (∀ n, (traceG authLoopFuns initialAgentSt n).2.action_success = false) := by
  have hnode : ∀ n, (traceG authLoopFuns initialAgentSt n).1 ≠ GraphNode.finished ∧
      (traceG authLoopFuns initialAgentSt n).2.action_success = false := by
    intro n
    by_cases hn : n < 3
    · interval_cases n <;> exact ⟨by decide, by decide⟩
    · obtain ⟨k, rfl⟩ : ∃ k, n = 3 + k := ⟨n - 3, by omega⟩
      have h := authLoop_cycle k
      rcases Nat.mod_two_eq_zero_or_one k with hk | hk
      · rw [h, if_pos hk]
        exact ⟨by decide, rfl⟩
      · rw [h, if_neg (by omega)]
        exact ⟨by decide, rfl⟩
  exact ⟨fun ⟨n, hn⟩ => (hnode n).1 hn, fun n => (hnode n).2⟩

/-- A stable sort yields the empty list exactly on the empty list. -/
theorem mergeSort_eq_nil_iff {α : Type} (le : α → α → Bool) (l : List α) :
    l.mergeSort le = [] ↔ l = [] := by
  constructor
  · intro h
    have hperm := List.mergeSort_perm l le
    rw [h] at hperm
    exact (List.Perm.eq_nil hperm.symm)
  · intro h
    rw [h]
    exact List.mergeSort_nil

/-- For a transitive total comparison, the head of the sorted list is a
member of the original list that compares below every member. -/
theorem mergeSort_head_min {α : Type} (le : α → α → Bool)
    (htrans : ∀ a b c, le a b = true → le b c = true → le a c = true)
    (htotal : ∀ a b, (le a b || le b a) = true)
    (l : List α) (b : α) (rest : List α) (h : l.mergeSort le = b :: rest) :
    b ∈ l ∧ ∀ x ∈ l, le b x = true := by
  have hperm := List.mergeSort_perm l le
  have hsorted := List.sorted_mergeSort htrans htotal l
  rw [h] at hperm hsorted
  constructor
  · exact hperm.subset (List.mem_cons_self b rest)
  · intro x hx
    have hx' : x ∈ b :: rest := hperm.symm.subset hx
    rcases List.mem_cons.mp hx' with heq | hx''
    · rw [heq]
      simpa using htotal b b
    · exact (List.pairwise_cons.mp hsorted).1 x hx''

/-- If `find_real_login_button` returns a button, that button is one of the
qualifying large non-input clickable buttons, the returned coordinates are
its center, and its vertical center is minimal among all qualifying
buttons. -/
theorem rlb_some_min (tree : List UINode) (x y : ℕ) (b : RLBBtn)
    (h : find_real_login_button tree = some (x, y, b)) :
    b ∈ (tree.filter rlbQualifies).map toRLBBtn ∧ x = b.x ∧ y = b.y ∧
      ∀ b' ∈ (tree.filter rlbQualifies).map toRLBBtn, b.y ≤ b'.y := by
  have h' : (match ((tree.filter rlbQualifies).map toRLBBtn).mergeSort
      (fun a b => decide (a.y ≤ b.y)) with
    | [] => (none : Option (ℕ × ℕ × RLBBtn))
    | b :: _ => some (b.x, b.y, b)) = some (x, y, b) := h
  rcases hms : ((tree.filter rlbQualifies).map toRLBBtn).mergeSort
      (fun a b => decide (a.y ≤ b.y)) with _ | ⟨b0, rest⟩
  · rw [hms] at h'
    simp at h'
  · rw [hms] at h'
    simp only [Option.some.injEq, Prod.mk.injEq] at h'
    obtain ⟨hx, hy, hb⟩ := h'
    subst hb
    have hmin := mergeSort_head_min (fun a b => decide (a.y ≤ b.y))
      (fun a b c hab hbc => by
        simp only [decide_eq_true_eq] at *
        omega)
      (fun a b => by
        rcases Nat.le_total a.y b.y with h1 | h1 <;> simp [h1])
      ((tree.filter rlbQualifies).map toRLBBtn) b0 rest hms
    refine ⟨hmin.1, hx.symm, hy.symm, ?_⟩
    intro b' hb'
    have := hmin.2 b' hb'
    simpa using this

/-- C3: the bottom-sheet rule keeps exactly the clickable elements with
`width > 300` and `height > 80` whose class is not an input-field class
(`rlbQualifies`), and returns the topmost of them (minimal vertical
center); in particular, with exactly two qualifying large buttons of
vertical centers 400 and 900 (in either document order) it returns the
one at 400. -/
theorem find_real_login_button_topmost :
    (∀ (tree : List UINode) (x y : ℕ) (b : RLBBtn),
      find_real_login_button tree = some (x, y, b) →
        b ∈ (tree.filter rlbQualifies).map toRLBBtn ∧ x = b.x ∧ y = b.y ∧
        ∀ b' ∈ (tree.filter rlbQualifies).map toRLBBtn, b.y ≤ b'.y) ∧
    (∀ tree : List UINode,
      ((tree.filter rlbQualifies).map toRLBBtn).map RLBBtn.y = [400, 900] ∨
        ((tree.filter rlbQualifies).map toRLBBtn).map RLBBtn.y = [900, 400] →
      ∃ b, find_real_login_button tree = some (b.x, b.y, b) ∧ b.y = 400) := by
  refine ⟨rlb_some_min, ?_⟩
  intro tree hys
  have hall : ∀ z ∈ (tree.filter rlbQualifies).map toRLBBtn, z.y = 400 ∨ z.y = 900 := by
    intro z hz
    have hzin : z.y ∈ ((tree.filter rlbQualifies).map toRLBBtn).map RLBBtn.y :=
      List.mem_map_of_mem RLBBtn.y hz
    rcases hys with hys | hys <;> rw [hys] at hzin <;> simp at hzin <;> tauto
  have hex : ∃ z ∈ (tree.filter rlbQualifies).map toRLBBtn, z.y = 400 := by
    have h400 : (400 : ℕ) ∈ ((tree.filter rlbQualifies).map toRLBBtn).map RLBBtn.y := by
      rcases hys with hys | hys <;> rw [hys] <;> simp
    obtain ⟨z, hz, hzy⟩ := List.mem_map.mp h400
    exact ⟨z, hz, hzy⟩
  have hne : (tree.filter rlbQualifies).map toRLBBtn ≠ [] := by
    intro hnil
    rcases hys with hys | hys <;> rw [hnil] at hys <;> simp at hys
  rcases hms : ((tree.filter rlbQualifies).map toRLBBtn).mergeSort
      (fun a b => decide (a.y ≤ b.y)) with _ | ⟨b0, rest⟩
  · exact absurd ((mergeSort_eq_nil_iff _ _).mp hms) hne
  · have hres : find_real_login_button tree = some (b0.x, b0.y, b0) := by
      show (match ((tree.filter rlbQualifies).map toRLBBtn).mergeSort
          (fun a b => decide (a.y ≤ b.y)) with
        | [] => (none : Option (ℕ × ℕ × RLBBtn))
        | b :: _ => some (b.x, b.y, b)) = some (b0.x, b0.y, b0)
      rw [hms]
    obtain ⟨hmem, _, _, hmin⟩ := rlb_some_min tree b0.x b0.y b0 hres
    obtain ⟨z, hz, hzy⟩ := hex
    have hb0le : b0.y ≤ z.y := hmin z hz
    rw [hzy] at hb0le
    have hb0or : b0.y = 400 ∨ b0.y = 900 := hall b0 hmem
    have hb400 : b0.y = 400 := by omega
    exact ⟨b0, hres, hb400⟩

/-- C3, witness: on a dump with qualifying buttons at vertical centers 900
and 400 (bottom-most listed first), the bottom-sheet rule returns the
y = 400 element. -/
theorem C3_witness :
    ∃ b, find_real_login_button twoButtonTree = some (b.x, b.y, b) ∧ b.y = 400 :=
  find_real_login_button_topmost.2 twoButtonTree (Or.inr (by decide))

/-- C9, amended: when exactly one clickable element strictly larger than
300 x 80 with a non-input class is present, the bottom-sheet rule returns
that element (its center coordinates and record). -/
theorem rlb_singleton (tree : List UINode) (n : UINode)
    (h : tree.filter rlbQualifies = [n]) :
    find_real_login_button tree
      = some ((toRLBBtn n).x, (toRLBBtn n).y, toRLBBtn n) := by
  unfold find_real_login_button
  rw [h]
  simp [List.mergeSort_singleton]

/-- C9, counterexample: a dump with exactly one clickable non-input element
of size exactly 300 x 80 — i.e. "at least 300 x 80" — on which the
bottom-sheet rule returns `None` (its filter demands strict inequalities). -/
theorem C9_counterexample :
    boundary300x80Tree.length = 1 ∧
    (∀ n ∈ boundary300x80Tree, n.clickable = true ∧
      (n.x2 : ℤ) - n.x1 ≥ 300 ∧ (n.y2 : ℤ) - n.y1 ≥ 80 ∧
      isInputClass (n.className.getD "") = false) ∧
    find_real_login_button boundary300x80Tree = none := by
  have hfilter : boundary300x80Tree.filter rlbQualifies = [] := by decide
  refine ⟨by decide, by decide, ?_⟩
  unfold find_real_login_button
  rw [hfilter]
  simp

/-- C9, witness for the amended theorem: the rule returns the single
(strictly large) qualifying button of `singletonButtonTree`. -/
theorem C9_witness :
    find_real_login_button singletonButtonTree
      = some ((toRLBBtn singletonButtonNode).x, (toRLBBtn singletonButtonNode).y,
        toRLBBtn singletonButtonNode) :=
  rlb_singleton singletonButtonTree singletonButtonNode (by decide)

/-- C8, amended: every element returned by the clickable-element parse
comes from a clickable node of the dump, carries that node's rectangle
(width or height may be zero — zero-area nodes are not excluded), and all
of text, content-description, class and resource-id default to the empty
string when the node lacks the attribute. -/
theorem find_clickable_elements_defaults (tree : List UINode) (e : UIElement)
    (he : e ∈ find_clickable_elements tree) :
    ∃ n ∈ tree, n.clickable = true ∧ e = toElement n ∧
      e.width = (n.x2 : ℤ) - n.x1 ∧ e.height = (n.y2 : ℤ) - n.y1 ∧
      (n.text = none → e.text = "") ∧
      (n.contentDesc = none → e.content_desc = "") ∧
      (n.className = none → e.className = "") ∧
      (n.resourceId = none → e.resource_id = "") := by
  unfold find_clickable_elements at he
  obtain ⟨n, hn, hne⟩ := List.mem_map.mp he
  have hmem := List.mem_filter.mp hn
  refine ⟨n, hmem.1, by simpa using hmem.2, hne.symm, ?_, ?_, ?_, ?_, ?_, ?_⟩ <;>
    subst hne
  · rfl
  · rfl
  · intro h; simp [toElement, h]
  · intro h; simp [toElement, h]
  · intro h; simp [toElement, h]
  · intro h; simp [toElement, h]

/-- C8, counterexample: a dump with a single clickable zero-area node; the
parse returns it with width 0, so zero-area nodes do appear in the result. -/
theorem C8_counterexample :
    (find_clickable_elements zeroAreaTree).map UIElement.width = [0] ∧
    (find_clickable_elements zeroAreaTree).map UIElement.height = [0] ∧
    ¬ (∀ e ∈ find_clickable_elements zeroAreaTree, 0 < e.width ∧ 0 < e.height) := by
  refine ⟨by decide, by decide, ?_⟩
  intro h
  have := h (toElement zeroAreaNode) (by decide)
  simp [toElement, zeroAreaNode] at this

/-- C8, witness for the amended theorem: the single element parsed from
`zeroAreaTree` (whose node has no text/class attributes) satisfies the
defaulting conclusion. -/
theorem C8_witness :
    ∃ n ∈ zeroAreaTree, n.clickable = true ∧ toElement zeroAreaNode = toElement n ∧
      (toElement zeroAreaNode).width = (n.x2 : ℤ) - n.x1 ∧
      (toElement zeroAreaNode).height = (n.y2 : ℤ) - n.y1 ∧
      (n.text = none → (toElement zeroAreaNode).text = "") ∧
      (n.contentDesc = none → (toElement zeroAreaNode).content_desc = "") ∧
      (n.className = none → (toElement zeroAreaNode).className = "") ∧
      (n.resourceId = none → (toElement zeroAreaNode).resource_id = "") :=
  find_clickable_elements_defaults zeroAreaTree (toElement zeroAreaNode) (by decide)

/-- C7, amended: the keyword locator's first strategy returns the first
clickable node (in document order) carrying a text attribute whose
lowercased text is non-empty and contains one of the lowercased keywords —
with no input-field exclusion: the returned element's class is not
consulted, so an editable text box can be returned as a button. -/
theorem find_button_by_keywords_direct_text (tree : List UINode)
    (keywords : List String) (n : UINode)
    (h : tree.find? (fbkDirectPred (keywords.map lowerStr)) = some n) :
    find_button_by_keywords tree keywords = some (n.cx, n.cy, n.text.getD "") ∧
      n ∈ tree ∧ fbkDirectPred (keywords.map lowerStr) n = true := by
  refine ⟨?_, List.mem_of_find?_eq_some h, List.find?_some h⟩
  simp only [find_button_by_keywords, fbkMethod1, h, Option.map_some']
  rfl

/-- C7, counterexample: on a dump whose only node is a clickable
`android.widget.EditText` with text "Login", the keyword locator returns
that input field (its center and text) for the keyword set `["login"]` —
a text box is treated as a button. -/
theorem C7_counterexample :
    find_button_by_keywords editTextTree ["login"] = some (200, 50, "Login") ∧
    editTextNode.className = some "android.widget.EditText" ∧
    isInputClass "android.widget.EditText" = true ∧
    (200, 50) = (editTextNode.cx, editTextNode.cy) := by
  refine ⟨by decide, by decide, by decide, by decide⟩

/-- C7, witness for the amended theorem, exercising case-insensitivity:
keyword "LOGIN" matches the node text "Login". -/
theorem C7_witness :
    find_button_by_keywords editTextTree ["LOGIN"] = some (200, 50, "Login") ∧
      editTextNode ∈ editTextTree ∧
      fbkDirectPred (["LOGIN"].map lowerStr) editTextNode = true := by
  have h := find_button_by_keywords_direct_text editTextTree ["LOGIN"]
    editTextNode (by decide)
  simpa using h

/-- C10: the send-button locator near an input field returns `None` exactly
when the clickable-element list is empty; whenever elements exist but none
passes the positional filters, it returns the fixed fallback coordinates
(990, 1427) without structural corroboration. -/
theorem find_send_button_fallback (tree : List UINode) (input_x input_y : ℕ) :
    (find_send_button_near_input tree input_x input_y = none ↔
      find_clickable_elements tree = []) ∧
    (find_clickable_elements tree ≠ [] →
      (find_clickable_elements tree).filter (sendFilter input_x input_y) = [] →
      find_send_button_near_input tree input_x input_y
        = some (990, 1427,
            { x := 990, y := 1427, distance := 0, hasUpArrow := false,
              hasSendIndicator := false, desc := "send (fallback)" })) := by
  constructor
  · by_cases hempty : find_clickable_elements tree = []
    · have hnone : find_send_button_near_input tree input_x input_y = none := by
        simp only [find_send_button_near_input]
        rw [if_pos (by simp [List.isEmpty_iff, hempty])]
      simp [hnone, hempty]
    · have hne : (find_clickable_elements tree).isEmpty = false := by
        simp [List.isEmpty_iff, hempty]
      constructor
      · intro h
        exfalso
        revert h
        simp only [find_send_button_near_input, hne]
        simp only [Bool.false_eq_true, if_false]
        rcases hms : (((find_clickable_elements tree).filter
            (sendFilter input_x input_y)).map (toSendCand input_x input_y)).mergeSort sendLe
            with _ | _ <;> simp
      · intro h
        exact absurd h hempty
  · intro hne hfilter
    have hne' : (find_clickable_elements tree).isEmpty = false := by
      simp [List.isEmpty_iff, hne]
    simp only [find_send_button_near_input, hne', hfilter]
    simp [CHATGPT_SEND_BUTTON]

/-- C10, witness: with one clickable element that fails the positional
filters for an input field at (600, 1400), the locator falls back to the
fixed coordinates (990, 1427); and the locator returns `None` on the empty
dump. -/
theorem C10_witness :
    find_send_button_near_input smallCornerTree 600 1400
      = some (990, 1427,
          { x := 990, y := 1427, distance := 0, hasUpArrow := false,
            hasSendIndicator := false, desc := "send (fallback)" }) ∧
    find_send_button_near_input [] 600 1400 = none := by
  constructor
  · exact (find_send_button_fallback smallCornerTree 600 1400).2 (by decide) (by decide)
  · exact (find_send_button_fallback [] 600 1400).1.mpr (by decide)

end MobileAgent
